import Mathlib

/-!
Shallow embedding of the opportunity-dashboard pipeline (src/app.py) and
proofs of the specified properties.

The pipeline stages embedded here, in source order:

* `load_file` (app.py lines 37-46): CSV/Excel loading with a Latin-1
  retry after any failure of the primary parse.
* column projection (app.py line 64): `data = df[[c for c in
  OUTPUT_COLUMNS if c in df.columns]]`.
* filter construction and application (app.py lines 72-78 and 87-90):
  the filter mapping is built only over columns present in the projected
  table, and each non-empty selection restricts the rows with an
  `isin` membership test.
* summary metrics (app.py lines 110-111) and the chart aggregation
  (app.py lines 128-133 and 150-154): group by "Account", sum the
  revenue column, sort descending, truncate to top N, and re-index the
  distinct-count series by the truncated revenue keys.

Modelling conventions: cell values are `Val` (string, integer, or `na`
for pandas NaN); machine floats are modelled as integers, since no
verified property depends on rounding; fallible stages return `Option`
or `Except`; the byte stream of an upload is `List Nat`; the external
spreadsheet parser (`pandas.read_excel`, library code outside this
repository) is a parameter of `load_file`; `sort_values(ascending=False)`
is modelled by a deterministic descending insertion sort, since pandas
leaves the relative order of equal keys to the sort implementation.
-/

/-- Scalar cell value of a table: a string, an integer, or `na`
(the embedding of a pandas missing value / NaN). -/
inductive Val where
  | str : String → Val
  | num : Int → Val
  | na : Val
deriving DecidableEq

/-- Tabular structure: ordered column names plus rows of cell values,
embedding a pandas DataFrame restricted to what the pipeline uses. -/
structure Table where
  cols : List String
  rows : List (List Val)
deriving DecidableEq

/-- Equality of tables follows from equality of the two fields. -/
theorem table_ext {T S : Table} (h1 : T.cols = S.cols) (h2 : T.rows = S.rows) : T = S := by
  cases T
  cases S
  simp_all

/-- Filter column list of app.py lines 9-15. -/
def FILTER_COLUMNS : List String :=
  ["Account", "Market", "Description", "Stage", "Fiscal Period"]

/-- Output column allow-list of app.py lines 18-34. -/
def OUTPUT_COLUMNS : List String :=
  ["Account", "Opportunity ID", "Opportunity Name", "Market",
   "Primary Industry", "Responsible Delivery Entity", "Description",
   "Stage", "Fiscal Period", "Total Current Revenue (converted)",
   "SI SG Revenue (converted)", "SC SG Revenue (converted)",
   "Con SG Revenue (converted)", "Primary Opportunity Lead",
   "Client Account Lead"]

/-- Grouping column used by the aggregation (app.py lines 123, 129, 151). -/
def ACCOUNT : String := "Account"

/-- Revenue column summed by the aggregation (app.py lines 110, 129). -/
def REV : String := "Total Current Revenue (converted)"

/-- Identifier column counted by the aggregation (app.py lines 111, 151). -/
def OPP : String := "Opportunity ID"

/-- Value of `row` in the column named `c`, given the table column list
`cols`; a position outside the row is read as `na`. This embeds the
column lookup `frame[c]` applied to one row. -/
def cellVal (cols : List String) (row : List Val) (c : String) : Val :=
  (row.get? (cols.indexOf c)).getD Val.na

/-- Checks that `suffix` is a suffix of `l`; embeds the Python
`str.endswith` test used on the lower-cased file name (app.py line 41). -/
def hasSuffix (l suffix : List Char) : Bool :=
  decide (suffix = l.drop (l.length - suffix.length))

/-- Embeds `uploaded_file.name.lower().endswith(".csv")`
(app.py lines 39 and 41). -/
def isCsvName (name : String) : Bool :=
  hasSuffix (name.data.map Char.toLower)
    ([Char.ofNat 46, Char.ofNat 99, Char.ofNat 115, Char.ofNat 118])

/-- Checks for a UTF-8 continuation byte. -/
def isCont (b : Nat) : Bool := decide (0x80 ≤ b ∧ b < 0xC0)

/-- Strict UTF-8 decoding of a byte sequence, embedding the decode
performed by `pd.read_csv(..., encoding="utf-8")` (app.py line 42):
rejects lone or malformed continuation bytes, overlong encodings,
surrogate code points and values above U+10FFFF, returning `none`
exactly when the bytes are not valid UTF-8. -/
def utf8Decode : List Nat → Option (List Char)
  | [] => some []
  | b :: rest =>
    if b < 0x80 then
      (utf8Decode rest).map (fun cs => Char.ofNat b :: cs)
    else if b < 0xC2 then none
    else if b < 0xE0 then
      match rest with
      | b1 :: r2 =>
        if isCont b1 then
          (utf8Decode r2).map (fun cs => Char.ofNat ((b - 0xC0) * 0x40 + (b1 - 0x80)) :: cs)
        else none
      | [] => none
    else if b < 0xF0 then
      match rest with
      | b1 :: b2 :: r3 =>
        if (if b == 0xE0 then decide (0xA0 ≤ b1 ∧ b1 < 0xC0)
            else if b == 0xED then decide (0x80 ≤ b1 ∧ b1 < 0xA0)
            else isCont b1) && isCont b2 then
          (utf8Decode r3).map (fun cs =>
            Char.ofNat ((b - 0xE0) * 0x1000 + (b1 - 0x80) * 0x40 + (b2 - 0x80)) :: cs)
        else none
      | _ => none
    else if b < 0xF5 then
      match rest with
      | b1 :: b2 :: b3 :: r4 =>
        if (if b == 0xF0 then decide (0x90 ≤ b1 ∧ b1 < 0xC0)
            else if b == 0xF4 then decide (0x80 ≤ b1 ∧ b1 < 0x90)
            else isCont b1) && isCont b2 && isCont b3 then
          (utf8Decode r4).map (fun cs =>
            Char.ofNat ((b - 0xF0) * 0x40000 + (b1 - 0x80) * 0x1000
              + (b2 - 0x80) * 0x40 + (b3 - 0x80)) :: cs)
        else none
      | _ => none
    else none

/-- Latin-1 decoding, embedding `pd.read_csv(..., encoding="latin1")`
on the text layer (app.py line 46). Every byte value 0-255 denotes the
character with that code point, so this decode is total: it can never
fail, which is the encoding-level guarantee of the fallback. -/
def latin1Decode (bytes : List Nat) : List Char := bytes.map Char.ofNat

/-- Splits a character list at every occurrence of `sep`; always
returns at least one (possibly empty) group. -/
def splitListOn (sep : Char) : List Char → List (List Char)
  | [] => [[]]
  | c :: rest =>
    let r := splitListOn sep rest
    if c = sep then [] :: r
    else
      match r with
      | [] => [[c]]
      | g :: gs => (c :: g) :: gs

/-- Checks for an ASCII decimal digit. -/
def isDigitChar (c : Char) : Bool := decide (48 ≤ c.toNat ∧ c.toNat ≤ 57)

/-- Scalar conversion of one CSV field, embedding the type inference of
the pandas CSV reader as used by this pipeline: empty field becomes a
missing value, an all-digit field becomes a number, anything else stays
a string. -/
def parseField (f : List Char) : Val :=
  if f = [] then Val.na
  else if f.all isDigitChar then
    Val.num (Int.ofNat (f.foldl (fun acc c => acc * 10 + (c.toNat - 48)) 0))
  else Val.str (String.mk f)

/-- Structural CSV parse of decoded text, embedding the pandas CSV
reader on the structural layer: blank lines are skipped, an input with
no remaining lines fails (EmptyDataError), the first line is the
header, a data row with more fields than the header fails
(ParserError), and a short row is padded with missing values. `none`
is a structural `ParseError` of the specification. -/
def csvParse (chars : List Char) : Option Table :=
  let lines := (splitListOn (Char.ofNat 10) chars).filter (fun l => l ≠ [])
  match lines with
  | [] => none
  | header :: body =>
    let cols := (splitListOn (Char.ofNat 44) header).map String.mk
    let n := cols.length
    let parseRow := fun (ln : List Char) =>
      let fs := splitListOn (Char.ofNat 44) ln
      if n < fs.length then none
      else some (fs.map parseField ++ List.replicate (n - fs.length) Val.na)
    (body.mapM parseRow).map (fun rows => Table.mk cols rows)

/-- Embeds `load_file` (app.py lines 37-46). The primary attempt is the
UTF-8 CSV parse when the lower-cased name ends in ".csv", and otherwise
the spreadsheet parse; `excel` is the external spreadsheet reader
(`pandas.read_excel`, library code outside this repository), passed as
a parameter. The bare `except:` of line 44 catches any failure of the
primary attempt, rewinds the stream (`seek(0)`, modelled by reusing the
byte list from the start) and retries as Latin-1 CSV. -/
def load_file (excel : List Nat → Option Table) (name : String) (bytes : List Nat) :
    Option Table :=
  let primary : Option Table :=
    if isCsvName name then (utf8Decode bytes).bind csvParse
    else excel bytes
  match primary with
  | some t => some t
  | none => csvParse (latin1Decode bytes)

/-- Embeds the column projection of app.py line 64:
`data = df[[c for c in OUTPUT_COLUMNS if c in df.columns]].copy()`. -/
def projectColumns (T : Table) : Table :=
  let keep := OUTPUT_COLUMNS.filter (fun c => decide (c ∈ T.cols))
  Table.mk keep (T.rows.map (fun r => keep.map (fun c => cellVal T.cols r c)))

/-- Filter specification: an ordered association of column names with
the list of allowed values selected for that column, embedding the
`filters` dictionary of app.py lines 72-78. -/
abbrev FilterSpec := List (String × List Val)

/-- One iteration of the filter loop of app.py lines 88-90 for the
entry `p`. The presence guard embeds the construction-time test
`if col in data.columns` of line 76 (the `filters` dictionary only ever
holds present columns), and the non-emptiness guard embeds
`if selections:` of line 89; an active entry keeps the rows whose value
in the column is a member of the selection (`isin`, line 90). -/
def filterStep (T : Table) (p : String × List Val) : Table :=
  if p.1 ∈ T.cols ∧ p.2 ≠ [] then
    Table.mk T.cols (T.rows.filter (fun r => decide (cellVal T.cols r p.1 ∈ p.2)))
  else T

/-- Embeds the whole filter loop of app.py lines 87-90: the working
table is successively restricted by every filter entry. -/
def applyFilters (T : Table) : FilterSpec → Table
  | [] => T
  | p :: F => applyFilters (filterStep T p) F

/-- Declarative row predicate: the row satisfies every active
constraint of `F`, where an entry is active when its column is present
in `cols` and its selection is non-empty. Used to characterise
`applyFilters`. -/
def rowPred (cols : List String) (F : FilterSpec) (r : List Val) : Bool :=
  F.all (fun p =>
    !(decide (p.1 ∈ cols)) || decide (p.2 = []) || decide (cellVal cols r p.1 ∈ p.2))

/-- Aggregation error taxonomy of the specification: `missingColumn`
embeds the pandas KeyError raised when a required column is absent. -/
inductive AggError where
  | missingColumn : AggError
deriving DecidableEq

/-- Numeric reading of a cell for summation; missing values contribute
zero, matching the NaN-skipping sum of pandas. -/
def valInt : Val → Int
  | Val.num q => q
  | _ => 0

/-- Column of cell values of `T` named `c`, row by row. -/
def colCells (T : Table) (c : String) : List Val :=
  T.rows.map (fun r => cellVal T.cols r c)

/-- Distinct non-missing group keys of the grouping column, embedding
the group set of `filtered.groupby("Account")` (pandas drops missing
keys). -/
def groupKeys (T : Table) : List Val :=
  ((colCells T ACCOUNT).filter (fun v => v ≠ Val.na)).dedup

/-- Rows of `T` whose grouping-column value is `k`. -/
def groupRows (T : Table) (k : Val) : List (List Val) :=
  T.rows.filter (fun r => decide (cellVal T.cols r ACCOUNT = k))

/-- Sum of the revenue column over one group, embedding
`groupby("Account")["Total Current Revenue (converted)"].sum()`. -/
def groupSum (T : Table) (k : Val) : Int :=
  ((groupRows T k).map (fun r => valInt (cellVal T.cols r REV))).sum

/-- Count of distinct non-missing identifier values in one group,
embedding `groupby("Account")["Opportunity ID"].nunique()`. -/
def groupCount (T : Table) (k : Val) : Nat :=
  (((groupRows T k).map (fun r => cellVal T.cols r OPP)).filter
    (fun v => v ≠ Val.na)).dedup.length

/-- Inserts a keyed sum into a list sorted by non-increasing sum,
before the first strictly smaller entry. -/
def insertDesc (x : Val × Int) : List (Val × Int) → List (Val × Int)
  | [] => [x]
  | y :: ys => if y.2 ≤ x.2 then x :: y :: ys else y :: insertDesc x ys

/-- Deterministic descending sort by the summed value, embedding
`sort_values(ascending=False)` of app.py line 131. The pandas default
sort leaves the relative order of equal sums to the implementation;
this embedding fixes one deterministic order. -/
def sortDesc : List (Val × Int) → List (Val × Int)
  | [] => []
  | x :: xs => insertDesc x (sortDesc xs)

/-- Embeds `revenue_series` (app.py lines 128-133): group by Account,
sum the revenue column, sort descending by sum, take the first `n`. -/
def revenueSeries (T : Table) (n : Nat) : List (Val × Int) :=
  (sortDesc ((groupKeys T).map (fun k => (k, groupSum T k)))).take n

/-- Embeds the full distinct-count series
`filtered.groupby("Account")["Opportunity ID"].nunique()`
(app.py lines 150-152) before re-indexing, keyed by the group keys. -/
def groupNunique (T : Table) : List (Val × Nat) :=
  (groupKeys T).map (fun k => (k, groupCount T k))

/-- Embeds `Series.reindex` (app.py line 153): one entry per requested
key, in the requested order, holding the value the series associates
with that key, or a missing value (`none`) when the key is absent. -/
def reindexSeries (s : List (Val × Nat)) (keys : List Val) : List (Val × Option Nat) :=
  keys.map (fun k => (k, (s.find? (fun q => q.1 == k)).map Prod.snd))

/-- Embeds `count_series` (app.py lines 150-154): the distinct-count
series re-indexed by the truncated revenue-series keys. -/
def countSeries (T : Table) (n : Nat) : List (Val × Option Nat) :=
  reindexSeries (groupNunique T) ((revenueSeries T n).map Prod.fst)

/-- Fallible revenue aggregation: the chart pipeline accesses
`filtered.groupby("Account")["Total Current Revenue (converted)"]`
(app.py line 129), which raises a KeyError (`missingColumn`) when
either column is absent. -/
def revenueSeriesE (T : Table) (n : Nat) : Except AggError (List (Val × Int)) :=
  if ACCOUNT ∈ T.cols ∧ REV ∈ T.cols then Except.ok (revenueSeries T n)
  else Except.error AggError.missingColumn

/-- Fallible count aggregation: app.py line 151 accesses
`filtered.groupby("Account")["Opportunity ID"]`, raising a KeyError
when either column is absent. -/
def countSeriesE (T : Table) (n : Nat) : Except AggError (List (Val × Option Nat)) :=
  if ACCOUNT ∈ T.cols ∧ OPP ∈ T.cols then Except.ok (countSeries T n)
  else Except.error AggError.missingColumn

/-- Fallible total-revenue metric of app.py line 110: summing the
revenue column raises a KeyError when it is absent. The division by
one million for display is presentational and omitted. -/
def totalRevE (T : Table) : Except AggError Int :=
  if REV ∈ T.cols then Except.ok (((colCells T REV).map valInt).sum)
  else Except.error AggError.missingColumn

/-- Embeds `total_opps` (app.py line 111): the distinct identifier
count when the identifier column is present, otherwise the total row
count. The conditional expression makes this metric total: it raises
nothing. -/
def total_opps (T : Table) : Nat :=
  if OPP ∈ T.cols then ((colCells T OPP).filter (fun v => v ≠ Val.na)).dedup.length
  else T.rows.length

/-- The filter step never changes the column list. -/
theorem filterStep_cols (T : Table) (p : String × List Val) :
    (filterStep T p).cols = T.cols := by
  rw [filterStep]
  split <;> rfl

/-- The filter loop never changes the column list. -/
theorem applyFilters_cols (F : FilterSpec) : ∀ (T : Table),
    (applyFilters T F).cols = T.cols := by
  induction F with
  | nil => intro T; rfl
  | cons p F ih =>
    intro T
    rw [applyFilters, ih, filterStep_cols]

/-- Characterisation of the filter loop: its rows are exactly the rows
of the input that satisfy every active constraint, kept in input
order. -/
theorem applyFilters_rows (F : FilterSpec) : ∀ (T : Table),
    (applyFilters T F).rows = T.rows.filter (fun r => rowPred T.cols F r) := by
  induction F with
  | nil =>
    intro T
    simp [applyFilters, rowPred]
  | cons p F ih =>
    intro T
    rw [applyFilters, ih, filterStep_cols]
    by_cases h : p.1 ∈ T.cols ∧ p.2 ≠ []
    · rw [filterStep, if_pos h]
      show (List.filter _ T.rows).filter _ = _
      rw [List.filter_filter]
      apply List.filter_congr
      intro r _
      simp [rowPred, h.1, h.2]
      rw [Bool.and_comm]
    · rw [filterStep, if_neg h]
      apply List.filter_congr
      intro r _
      rcases not_and_or.mp h with h1 | h1
      · simp [rowPred, h1]
      · simp [rowPred, not_not.mp h1]

/-- Membership in the insertion step of the descending sort. -/
theorem mem_insertDesc {z x : Val × Int} : ∀ {l : List (Val × Int)},
    z ∈ insertDesc x l → z = x ∨ z ∈ l := by
  intro l
  induction l with
  | nil => intro h; simpa [insertDesc] using h
  | cons y ys ih =>
    intro h
    by_cases hle : y.2 ≤ x.2
    · rw [insertDesc, if_pos hle] at h
      exact List.mem_cons.mp h
    · rw [insertDesc, if_neg hle] at h
      rcases List.mem_cons.mp h with h1 | h1
      · exact Or.inr (List.mem_cons.mpr (Or.inl h1))
      · rcases ih h1 with h2 | h2
        · exact Or.inl h2
        · exact Or.inr (List.mem_cons.mpr (Or.inr h2))

/-- Inserting into a list sorted by non-increasing sums keeps it
sorted. -/
theorem pairwise_insertDesc {x : Val × Int} : ∀ {l : List (Val × Int)},
    List.Pairwise (fun a b => b.2 ≤ a.2) l →
    List.Pairwise (fun a b => b.2 ≤ a.2) (insertDesc x l) := by
  intro l
  induction l with
  | nil => intro _; simp [insertDesc]
  | cons y ys ih =>
    intro h
    rcases List.pairwise_cons.mp h with ⟨hy, hys⟩
    by_cases hle : y.2 ≤ x.2
    · rw [insertDesc, if_pos hle]
      refine List.pairwise_cons.mpr ⟨?_, h⟩
      intro z hz
      rcases List.mem_cons.mp hz with h1 | h1
      · subst h1; exact hle
      · exact le_trans (hy z h1) hle
    · rw [insertDesc, if_neg hle]
      refine List.pairwise_cons.mpr ⟨?_, ih hys⟩
      intro z hz
      rcases mem_insertDesc hz with h1 | h1
      · subst h1; exact le_of_not_le hle
      · exact hy z h1

/-- The descending sort produces non-increasing sums. -/
theorem pairwise_sortDesc : ∀ (l : List (Val × Int)),
    List.Pairwise (fun a b => b.2 ≤ a.2) (sortDesc l) := by
  intro l
  induction l with
  | nil => simp [sortDesc]
  | cons x xs ih => exact pairwise_insertDesc ih

/-- Re-indexing a series produces exactly the requested keys, in the
requested order. -/
theorem reindexSeries_fst (s : List (Val × Nat)) (keys : List Val) :
    (reindexSeries s keys).map Prod.fst = keys := by
  simp only [reindexSeries, List.map_map]
  exact List.map_id keys

/-- C1: for every uploaded file whose lower-cased name ends in ".csv",
any failure of the UTF-8 CSV parse makes `load_file` retry the same
bytes, from the start, as Latin-1 CSV (whose decoding step is total by
the type of `latin1Decode`, so the retry can only fail structurally);
hence on bytes that are not valid UTF-8 but structurally valid CSV,
`load_file` succeeds. -/
theorem fileLoader_csv_latin1_fallback (excel : List Nat → Option Table)
    (name : String) (bytes : List Nat) (hname : isCsvName name = true) :
    ((utf8Decode bytes).bind csvParse = none →
      load_file excel name bytes = csvParse (latin1Decode bytes)) ∧
    (utf8Decode bytes = none → (csvParse (latin1Decode bytes)).isSome = true →
      (load_file excel name bytes).isSome = true) := by
  constructor
  · intro hp
    simp [load_file, hname, hp]
  · intro hu hsome
    simp [load_file, hname, hu]
    exact hsome

/-- Closed instance of the Latin-1 fallback theorem: the single byte
0xFF is not valid UTF-8, is structurally valid Latin-1 CSV, and loading
it under a ".csv" name succeeds. -/
theorem fileLoader_csv_latin1_fallback_witness :
    utf8Decode [0xFF] = none ∧
    (csvParse (latin1Decode [0xFF])).isSome = true ∧
    (load_file (fun _ => none) ("data.csv") [0xFF]).isSome = true :=
  ⟨by decide, by decide,
    (fileLoader_csv_latin1_fallback (fun _ => none) ("data.csv") [0xFF]
      (by decide)).2 (by decide) (by decide)⟩

/-- C2: the filter keeps exactly the rows that, for every entry of the
filter specification whose column is present and whose allowed-value
set is non-empty, have their value in the allowed set; the kept rows
form a sublist of the input rows, so the relative order is preserved
and nothing is re-sorted. -/
theorem filterer_characterization (T : Table) (F : FilterSpec) :
    (applyFilters T F).cols = T.cols ∧
    (applyFilters T F).rows = T.rows.filter (fun r => rowPred T.cols F r) ∧
    List.Sublist (applyFilters T F).rows T.rows ∧
    (∀ r, r ∈ (applyFilters T F).rows ↔
      (r ∈ T.rows ∧ ∀ p ∈ F, p.1 ∈ T.cols → p.2 ≠ [] → cellVal T.cols r p.1 ∈ p.2)) := by
  refine ⟨applyFilters_cols F T, applyFilters_rows F T, ?_, ?_⟩
  · rw [applyFilters_rows]
    exact List.filter_sublist T.rows
  · intro r
    rw [applyFilters_rows, List.mem_filter]
    constructor
    · rintro ⟨hr, hp⟩
      refine ⟨hr, ?_⟩
      intro p hp1 hmem hne
      have hall := (List.all_eq_true.mp hp) p hp1
      simp [hmem, hne] at hall
      exact hall
    · rintro ⟨hr, hall⟩
      refine ⟨hr, ?_⟩
      apply List.all_eq_true.mpr
      intro p hp1
      by_cases hmem : p.1 ∈ T.cols
      · by_cases hne : p.2 = []
        · simp [hne]
        · simp [hmem, hne, hall p hp1 hmem hne]
      · simp [hmem]

/-- Closed instance of the filter characterisation on a two-row table
with a one-column constraint. -/
theorem filterer_characterization_witness :
    (applyFilters (Table.mk (["Stage"]) ([[Val.str ("Won")], [Val.str ("Lost")]]))
        ([("Stage", [Val.str ("Won")])])).rows =
      (Table.mk (["Stage"]) ([[Val.str ("Won")], [Val.str ("Lost")]])).rows.filter
        (fun r => rowPred (["Stage"]) ([("Stage", [Val.str ("Won")])]) r) :=
  (filterer_characterization (Table.mk (["Stage"]) ([[Val.str ("Won")], [Val.str ("Lost")]]))
    ([("Stage", [Val.str ("Won")])])).2.1

/-- C3: on a non-empty filtered table holding the grouping, revenue and
identifier columns and a positive N, the two chart series succeed, the
count series carries exactly the revenue-series keys in the same order,
both series have length at most N, the revenue sums are
non-increasing, and every count-series value is read off the full
distinct-count series at the corresponding truncated revenue key. -/
theorem aggregator_series_shape (T : Table) (n : Nat)
    (hrows : T.rows ≠ []) (hA : ACCOUNT ∈ T.cols) (hR : REV ∈ T.cols)
    (hO : OPP ∈ T.cols) (hn : 0 < n) :
    revenueSeriesE T n = Except.ok (revenueSeries T n) ∧
    countSeriesE T n = Except.ok (countSeries T n) ∧
    (countSeries T n).map Prod.fst = (revenueSeries T n).map Prod.fst ∧
    (revenueSeries T n).length ≤ n ∧ (countSeries T n).length ≤ n ∧
    List.Pairwise (fun a b => b.2 ≤ a.2) (revenueSeries T n) ∧
    (∀ p ∈ countSeries T n,
      p.2 = ((groupNunique T).find? (fun q => q.1 == p.1)).map Prod.snd) := by
  have hlenr : (revenueSeries T n).length ≤ n := by
    simp [revenueSeries]
  have hkeys : (countSeries T n).map Prod.fst = (revenueSeries T n).map Prod.fst := by
    rw [countSeries, reindexSeries_fst]
  refine ⟨by simp [revenueSeriesE, hA, hR], by simp [countSeriesE, hA, hO], hkeys, hlenr, ?_, ?_, ?_⟩
  · have : (countSeries T n).length = (revenueSeries T n).length := by
      have h1 := congrArg List.length hkeys
      simpa using h1
    rw [this]
    exact hlenr
  · exact (pairwise_sortDesc _).sublist (List.take_sublist _ _)
  · intro p hp
    rw [countSeries, reindexSeries] at hp
    rcases List.mem_map.mp hp with ⟨k, _, rfl⟩
    rfl

/-- Closed instance of the aggregator shape theorem on a three-row,
two-account table with N = 2. -/
theorem aggregator_series_shape_witness :
    (revenueSeries
      (Table.mk (["Account", "Opportunity ID", "Total Current Revenue (converted)"])
        ([[Val.str ("A"), Val.num 1, Val.num 1000000],
          [Val.str ("B"), Val.num 2, Val.num 3000000],
          [Val.str ("A"), Val.num 3, Val.num 500000]])) 2).length ≤ 2 ∧
    (countSeries
      (Table.mk (["Account", "Opportunity ID", "Total Current Revenue (converted)"])
        ([[Val.str ("A"), Val.num 1, Val.num 1000000],
          [Val.str ("B"), Val.num 2, Val.num 3000000],
          [Val.str ("A"), Val.num 3, Val.num 500000]])) 2).map Prod.fst =
    (revenueSeries
      (Table.mk (["Account", "Opportunity ID", "Total Current Revenue (converted)"])
        ([[Val.str ("A"), Val.num 1, Val.num 1000000],
          [Val.str ("B"), Val.num 2, Val.num 3000000],
          [Val.str ("A"), Val.num 3, Val.num 500000]])) 2).map Prod.fst :=
  ⟨(aggregator_series_shape
      (Table.mk (["Account", "Opportunity ID", "Total Current Revenue (converted)"])
        ([[Val.str ("A"), Val.num 1, Val.num 1000000],
          [Val.str ("B"), Val.num 2, Val.num 3000000],
          [Val.str ("A"), Val.num 3, Val.num 500000]])) 2
      (by decide) (by decide) (by decide) (by decide) (by decide)).2.2.2.1,
   (aggregator_series_shape
      (Table.mk (["Account", "Opportunity ID", "Total Current Revenue (converted)"])
        ([[Val.str ("A"), Val.num 1, Val.num 1000000],
          [Val.str ("B"), Val.num 2, Val.num 3000000],
          [Val.str ("A"), Val.num 3, Val.num 500000]])) 2
      (by decide) (by decide) (by decide) (by decide) (by decide)).2.2.1⟩

/-- C4: the projected table keeps exactly the output-list columns that
the source has, in output-list order; the column list is determined by
column membership alone (source order is irrelevant); the row count is
unchanged; and a source with none of the output columns projects to a
zero-column table rather than an error. -/
theorem columnProjector_spec (T : Table) :
    (∀ c, c ∈ (projectColumns T).cols ↔ (c ∈ OUTPUT_COLUMNS ∧ c ∈ T.cols)) ∧
    List.Sublist (projectColumns T).cols OUTPUT_COLUMNS ∧
    (projectColumns T).rows.length = T.rows.length ∧
    (∀ S : Table, (∀ c, c ∈ T.cols ↔ c ∈ S.cols) →
      (projectColumns T).cols = (projectColumns S).cols) ∧
    ((∀ c ∈ OUTPUT_COLUMNS, c ∉ T.cols) → (projectColumns T).cols = []) := by
  have hc : ∀ (S : Table),
      (projectColumns S).cols = OUTPUT_COLUMNS.filter (fun c => decide (c ∈ S.cols)) :=
    fun S => rfl
  refine ⟨?_, ?_, ?_, ?_, ?_⟩
  · intro c
    simp [projectColumns, List.mem_filter]
  · rw [hc]
    exact List.filter_sublist OUTPUT_COLUMNS
  · simp [projectColumns]
  · intro S hS
    rw [hc, hc]
    apply List.filter_congr
    intro c _
    simp [hS c]
  · intro habs
    rw [hc, List.filter_eq_nil_iff]
    intro c hcm
    simp [habs c hcm]

/-- Closed instance of the projection theorem: a source sharing no
column with the output list projects to a zero-column table. -/
theorem columnProjector_spec_witness :
    (projectColumns (Table.mk (["Foo"]) ([[Val.num 1]]))).cols = [] :=
  (columnProjector_spec (Table.mk (["Foo"]) ([[Val.num 1]]))).2.2.2.2 (by decide)

/-- C5: when the grouping column or the revenue column is absent from
the filtered table, the revenue aggregation reports `missingColumn`
instead of a silent zero, and so does the total-revenue metric when the
revenue column is absent. -/
theorem aggregator_missing_column (T : Table) (n : Nat)
    (h : ACCOUNT ∉ T.cols ∨ REV ∉ T.cols) :
    revenueSeriesE T n = Except.error AggError.missingColumn ∧
    (REV ∉ T.cols → totalRevE T = Except.error AggError.missingColumn) := by
  constructor
  · rw [revenueSeriesE, if_neg]
    tauto
  · intro hR
    rw [totalRevE, if_neg hR]

/-- Closed instance of the missing-column theorem on a table with a
single unrelated column. -/
theorem aggregator_missing_column_witness :
    revenueSeriesE (Table.mk (["Foo"]) ([])) 1 = Except.error AggError.missingColumn ∧
    totalRevE (Table.mk (["Foo"]) ([])) = Except.error AggError.missingColumn :=
  ⟨(aggregator_missing_column (Table.mk (["Foo"]) ([])) 1 (Or.inl (by decide))).1,
   (aggregator_missing_column (Table.mk (["Foo"]) ([])) 1 (Or.inl (by decide))).2 (by decide)⟩

/-- C6: filter entries whose column is absent from the table are
ignored: the result coincides with filtering by only the present
entries, and the filter itself is a total function, so no error is
possible. -/
theorem filterer_ignores_absent_columns (T : Table) (F : FilterSpec) :
    applyFilters T F = applyFilters T (F.filter (fun p => decide (p.1 ∈ T.cols))) := by
  apply table_ext
  · rw [applyFilters_cols, applyFilters_cols]
  · rw [applyFilters_rows, applyFilters_rows]
    apply List.filter_congr
    intro r _
    induction F with
    | nil => rfl
    | cons p F ih =>
      by_cases h : p.1 ∈ T.cols
      · simp [rowPred, h] at ih ⊢
        rw [ih]
      · simp [rowPred, h] at ih ⊢
        exact ih

/-- C7: the aggregation is deterministic: equal filtered tables and
equal truncation counts give identical revenue and count series,
including the relative order of equal sums, fixed here by the
deterministic descending sort of the embedding. -/
theorem aggregator_deterministic (T S : Table) (n m : Nat)
    (hT : T = S) (hn : n = m) :
    revenueSeries T n = revenueSeries S m ∧ countSeries T n = countSeries S m := by
  subst hT
  subst hn
  exact ⟨rfl, rfl⟩

/-- Closed instance of the determinism theorem on a one-row table. -/
theorem aggregator_deterministic_witness :
    revenueSeries (Table.mk (["Account"]) ([[Val.str ("A")]])) 1 =
      revenueSeries (Table.mk (["Account"]) ([[Val.str ("A")]])) 1 :=
  (aggregator_deterministic (Table.mk (["Account"]) ([[Val.str ("A")]]))
    (Table.mk (["Account"]) ([[Val.str ("A")]])) 1 1 rfl rfl).1

/-- C8: on a non-empty filtered table lacking the identifier column,
the opportunity-count metric silently falls back to the total row
count; the metric is a total function, so no error is raised. -/
theorem opportunity_count_fallback (T : Table)
    (hrows : T.rows ≠ []) (h : OPP ∉ T.cols) :
    total_opps T = T.rows.length := by
  rw [total_opps, if_neg h]

/-- Closed instance of the count fallback on a one-row table without
the identifier column. -/
theorem opportunity_count_fallback_witness :
    total_opps (Table.mk (["Account"]) ([[Val.str ("A")]])) =
      (Table.mk (["Account"]) ([[Val.str ("A")]])).rows.length :=
  opportunity_count_fallback (Table.mk (["Account"]) ([[Val.str ("A")]]))
    (by decide) (by decide)

/-- C9: the filter is idempotent: applying the same filter
specification twice gives the same table as applying it once. -/
theorem filterer_idempotent (T : Table) (F : FilterSpec) :
    applyFilters (applyFilters T F) F = applyFilters T F := by
  apply table_ext
  · rw [applyFilters_cols, applyFilters_cols]
  · rw [applyFilters_rows, applyFilters_rows, applyFilters_cols, List.filter_filter]
    apply List.filter_congr
    intro r _
    simp

/-- C10: for a file whose name does not end in ".csv", any failure of
the spreadsheet parse is not surfaced: `load_file` rewinds and parses
the same bytes as Latin-1 CSV, so a malformed spreadsheet upload can
produce a CSV-parsed table. -/
theorem fileLoader_excel_fallback (excel : List Nat → Option Table)
    (name : String) (bytes : List Nat)
    (hname : isCsvName name = false) (hex : excel bytes = none) :
    load_file excel name bytes = csvParse (latin1Decode bytes) := by
  simp [load_file, hname, hex]

/-- Closed instance of the spreadsheet-fallback theorem: a failing
spreadsheet parse of the single byte 0x41 under an ".xlsx" name yields
the Latin-1 CSV parse of that byte, which succeeds. -/
theorem fileLoader_excel_fallback_witness :
    load_file (fun _ => none) ("data.xlsx") [0x41] = csvParse (latin1Decode [0x41]) ∧
    (csvParse (latin1Decode [0x41])).isSome = true :=
  ⟨fileLoader_excel_fallback (fun _ => none) ("data.xlsx") [0x41] (by decide) rfl,
   by decide⟩
